import Mathlib

/-!
# route53-updater: the reconciliation loop of `main.go`

A shallow embedding of `main.go`.  The program talks to three external
services (the address-reflection endpoint, `ListResourceRecordSets` and
`ChangeResourceRecordSets`); what they answer during one loop iteration is a
`World`, and every call and log line the program makes is recorded, in order,
as an `Event`.  A Go `panic` is an explicit result (`Exec.panic`), turned into
an error by the deferred `recover` of the tick closure.

Library behaviour taken from the Go standard library and the AWS SDK:

* `json.Unmarshal` first checks that the bytes are valid JSON and then decodes
  the document into `struct { IP string }`.  The struct tag `json:ip` of the
  source is not in the `key:"value"` form, so `reflect` ignores it and the
  field is matched under its Go name `IP`, exactly or ignoring ASCII case.
  The response bytes are represented by the outcome of the validity check
  (`RespBytes`).
* `errors.New`, `fmt.Sprintf` with `%v` on strings: string concatenation.
-/

namespace Route53Updater

/-! ## Data model -/

/-- Go `error` values, identified by the text of `Error()`; `nil` is `none`. -/
abbrev Error := String

/-- The SDK type `route53.ResourceRecord`; `Value` is a `*string`. -/
structure ResourceRecord where
  Value : Option String
deriving DecidableEq

/-- The SDK type `route53.ResourceRecordSet`, with the fields the program reads or writes. -/
structure ResourceRecordSet where
  Name : Option String
  Type_ : Option String
  TTL : Option Int
  ResourceRecords : List (Option ResourceRecord)
deriving DecidableEq

/-- The SDK type `route53.Change`. -/
structure Change where
  Action : Option String
  ResourceRecordSet : Option ResourceRecordSet
deriving DecidableEq

/-- The SDK type `route53.ChangeBatch`. -/
structure ChangeBatch where
  Changes : List (Option Change)
deriving DecidableEq

/-- The SDK type `route53.ChangeResourceRecordSetsInput`. -/
structure ChangeResourceRecordSetsInput where
  ChangeBatch : Option ChangeBatch
  HostedZoneId : Option String
deriving DecidableEq

/-- The SDK type `route53.ListResourceRecordSetsInput`. -/
structure ListResourceRecordSetsInput where
  HostedZoneId : Option String
  StartRecordName : Option String
  StartRecordType : Option String
  MaxItems : Option String
deriving DecidableEq

/-- The SDK type `route53.ListResourceRecordSetsOutput`. -/
structure ListResourceRecordSetsOutput where
  ResourceRecordSets : List (Option ResourceRecordSet)
deriving DecidableEq

/-- The pair `(resp, err)` returned by `svc.ListResourceRecordSets`. -/
structure ListResult where
  resp : Option ListResourceRecordSetsOutput
  err : Option Error
deriving DecidableEq

/-- A JSON document. -/
inductive Json where
  | null
  | bool (b : Bool)
  | number (lit : String)
  | string (s : String)
  | array (elems : List Json)
  | object (members : List (String × Json))

/-- The response bytes as `json.Unmarshal` sees them: rejected by the validity
check with a syntax error, or the text of a JSON document. -/
inductive RespBytes where
  | invalid (err : Error)
  | valid (doc : Json)

/-- What `http.Get` followed by `ioutil.ReadAll(resp.Body)` yields. -/
inductive HttpResult where
  | getErr (e : Error)
  | readErr (e : Error)
  | body (respBytes : RespBytes)

/-- Levels of the zerolog events the program writes. -/
inductive Level where
  | info
  | error
deriving DecidableEq

/-- Everything the program does that is visible outside it, in program order. -/
inductive Event where
  | httpGet (url : String)
  | listResourceRecordSets (input : ListResourceRecordSetsInput)
  | changeResourceRecordSets (input : ChangeResourceRecordSetsInput)
  | log (level : Level) (fields : List (String × String)) (msg : String)
  | sleep (nanos : Nat)
deriving DecidableEq

/-- The answers of the external services during one iteration of the loop. -/
structure World where
  httpGet : String → HttpResult
  listResourceRecordSets : ListResourceRecordSetsInput → ListResult
  changeResourceRecordSets : ChangeResourceRecordSetsInput → Option Error

/-- The command-line values the loop uses (`sess` carries only credentials). -/
structure Config where
  domainName : String
  hostedZoneId : String

/-- A Go call either returns or panics with a value (printed with `%v`). -/
inductive Exec (α : Type) where
  | ret (a : α)
  | panic (re : String)

/-- The constant `time.Minute`, in nanoseconds. -/
def Minute : Nat := 60 * 1000000000

/-! ## `json.Unmarshal` into `struct { IP string }` -/

/-- The name of a JSON value in an `UnmarshalTypeError`. -/
def jsonKind : Json → String
  | .null => "null"
  | .bool _ => "bool"
  | .number _ => "number"
  | .string _ => "string"
  | .array _ => "array"
  | .object _ => "object"

/-- A JSON key selects the field `IP` when it equals `IP` exactly or ignoring
ASCII case. -/
def matchesFieldIP (key : String) : Bool :=
  key.data.map Char.toUpper == ['I', 'P']

/-- The `UnmarshalTypeError` of a member that cannot be stored in the field. -/
def fieldTypeError (v : Json) : Error :=
  "json: cannot unmarshal " ++ jsonKind v ++ " into Go struct field .IP of type string"

/-- The `UnmarshalTypeError` of a document that is not an object. -/
def structTypeError (v : Json) : Error :=
  "json: cannot unmarshal " ++ jsonKind v ++ " into Go value of type struct \x7b IP string \"json:ip\" \x7d"

/-- Decoding the members of an object from left to right.  The state is the
field `IP` and the first saved error: a string is stored, `null` leaves the
field as it is, any other value saves a type error and decoding goes on. -/
def decodeMembers : List (String × Json) → String × Option Error → String × Option Error
  | [], st => st
  | (k, v) :: rest, (ip, saved) =>
    if matchesFieldIP k then
      match v with
      | .string s => decodeMembers rest (s, saved)
      | .null => decodeMembers rest (ip, saved)
      | other => decodeMembers rest (ip, saved.orElse (fun _ => some (fieldTypeError other)))
    else decodeMembers rest (ip, saved)

/-- The call `json.Unmarshal(respBytes, &respStruct)`: the error and the field
`respStruct.IP` afterwards (it starts as the empty string). -/
def unmarshal : RespBytes → Option Error × String
  | .invalid e => (some e, "")
  | .valid .null => (none, "")
  | .valid (.object members) =>
    let st := decodeMembers members ("", none)
    (st.2, st.1)
  | .valid other => (some (structTypeError other), "")

/-! ## The functions of `main.go` -/

/-- The result of a traced call: what it returned and the events it made. -/
structure Traced (α : Type) where
  val : α
  trace : List Event

/-- The function `getCurrentIp`: the pair `(error, string)` it returns. -/
def getCurrentIp (w : World) : Traced (Option Error × String) :=
  let url := "https://api.myip.com"
  match w.httpGet url with
  | .getErr e => ⟨(some e, ""), [.httpGet url]⟩
  | .readErr e => ⟨(some e, ""), [.httpGet url]⟩
  | .body respBytes =>
    match unmarshal respBytes with
    | (some e, _) => ⟨(some e, ""), [.httpGet url]⟩
    | (none, ip) => ⟨(none, ip), [.httpGet url]⟩

/-- The panic value of an out-of-range index `[0]` on an empty slice. -/
def indexPanic : String := "runtime error: index out of range [0] with length 0"

/-- The panic value of a nil pointer dereference. -/
def nilPanic : String := "runtime error: invalid memory address or nil pointer dereference"

/-- The expression `*resp.ResourceRecordSets[0].ResourceRecords[0].Value`. -/
def firstValue (resp : Option ListResourceRecordSetsOutput) : Exec String :=
  match resp with
  | none => .panic nilPanic
  | some out =>
    match out.ResourceRecordSets with
    | [] => .panic indexPanic
    | none :: _ => .panic nilPanic
    | some rrs :: _ =>
      match rrs.ResourceRecords with
      | [] => .panic indexPanic
      | none :: _ => .panic nilPanic
      | some rr :: _ =>
        match rr.Value with
        | none => .panic nilPanic
        | some v => .ret v

/-- The request `getDomainIp` sends. -/
def listInput (name hostedZoneId : String) : ListResourceRecordSetsInput :=
  { HostedZoneId := some hostedZoneId
    StartRecordName := some name
    StartRecordType := some "A"
    MaxItems := some "1" }

/-- The function `getDomainIp`: the pair `(error, string)` it returns, or a panic. -/
def getDomainIp (w : World) (name hostedZoneId : String) :
    Traced (Exec (Option Error × String)) :=
  let input := listInput name hostedZoneId
  let r := w.listResourceRecordSets input
  match r.err with
  | some e => ⟨.ret (some e, ""), [.listResourceRecordSets input]⟩
  | none =>
    match firstValue r.resp with
    | .panic re => ⟨.panic re, [.listResourceRecordSets input]⟩
    | .ret v => ⟨.ret (none, v), [.listResourceRecordSets input]⟩

/-- The request `updateDomainIp` sends. -/
def changeInput (name ip hostedZoneId : String) : ChangeResourceRecordSetsInput :=
  { ChangeBatch := some
      { Changes := [some
          { Action := some "UPSERT"
            ResourceRecordSet := some
              { Name := some name
                Type_ := some "A"
                TTL := some 60
                ResourceRecords := [some { Value := some ip }] } }] }
    HostedZoneId := some hostedZoneId }

/-- The function `updateDomainIp`: the error it returns. -/
def updateDomainIp (w : World) (name ip hostedZoneId : String) : Traced (Option Error) :=
  let params := changeInput name ip hostedZoneId
  ⟨w.changeResourceRecordSets params, [.changeResourceRecordSets params]⟩

/-- The log line `Started`. -/
def logStarted (currentIP domainIP : String) : Event :=
  .log .info [("currentIP", currentIP), ("domainIP", domainIP)] "Started"

/-- The log line `IP change detected`. -/
def logChangeDetected (currentIP domainIP : String) : Event :=
  .log .info [("currentIP", currentIP), ("domainIP", domainIP)] "IP change detected"

/-- The log line `Changed domainIP`. -/
def logChanged (currentIP : String) : Event :=
  .log .info [("currentIP", currentIP)] "Changed domainIP"

/-- The log line `loop error`. -/
def logLoopError (err : Error) : Event :=
  .log .error [("error", err)] "loop error"

/-- How the body of the tick closure ended. -/
inductive Flow where
  | returned
  | panicked (re : String)

/-- The state of the tick closure when its body ends: the named result `err`,
the locals `currentIP` and `domainIP`, the captured `firstRun`, the events. -/
structure BodyResult where
  flow : Flow
  err : Option Error
  currentIP : String
  domainIP : String
  firstRun : Bool
  trace : List Event

/-- The body of the closure run by each iteration of the loop (lines 63-88). -/
def tickBody (cfg : Config) (w : World) (firstRun : Bool) : BodyResult :=
  let c := getCurrentIp w
  match c.val with
  | (some e, currentIP) => ⟨.returned, some e, currentIP, "", firstRun, c.trace⟩
  | (none, currentIP) =>
    let d := getDomainIp w cfg.domainName cfg.hostedZoneId
    match d.val with
    | .panic re => ⟨.panicked re, none, currentIP, "", firstRun, c.trace ++ d.trace⟩
    | .ret (some e, domainIP) =>
      ⟨.returned, some e, currentIP, domainIP, firstRun, c.trace ++ d.trace⟩
    | .ret (none, domainIP) =>
      let started := if firstRun then [logStarted currentIP domainIP] else []
      let firstRun := if firstRun then false else firstRun
      let t := c.trace ++ d.trace ++ started
      if currentIP ≠ domainIP then
        let u := updateDomainIp w cfg.domainName currentIP cfg.hostedZoneId
        let t := t ++ [logChangeDetected currentIP domainIP] ++ u.trace
        match u.val with
        | some e => ⟨.returned, some e, currentIP, domainIP, firstRun, t⟩
        | none => ⟨.returned, none, currentIP, domainIP, firstRun, t ++ [logChanged currentIP]⟩
      else ⟨.returned, none, currentIP, domainIP, firstRun, t⟩

/-- The message built by the deferred function after a recovered panic. -/
def panicMessage (currentIP domainIP re : String) : Error :=
  "panic currentIP=" ++ currentIP ++ ", domainIP=" ++ domainIP ++ ", err=" ++ re ++ "\n"

/-- What one call of the tick closure leaves behind. -/
structure TickResult where
  err : Option Error
  firstRun : Bool
  trace : List Event

/-- The tick closure: its body, then the deferred `recover`. -/
def tick (cfg : Config) (w : World) (firstRun : Bool) : TickResult :=
  let b := tickBody cfg w firstRun
  match b.flow with
  | .returned => ⟨b.err, b.firstRun, b.trace⟩
  | .panicked re => ⟨some (panicMessage b.currentIP b.domainIP re), b.firstRun, b.trace⟩

/-- The events of one iteration of the `for` loop: the tick, the `loop error`
line when it returned an error, the sleep. -/
def iteration (cfg : Config) (w : World) (firstRun : Bool) : List Event :=
  let r := tick cfg w firstRun
  r.trace ++ (match r.err with
    | some e => [logLoopError e]
    | none => []) ++ [.sleep Minute]

/-- The flag `firstRun` after the loop has run once for each world. -/
def flagAfter (cfg : Config) : Bool → List World → Bool
  | firstRun, [] => firstRun
  | firstRun, w :: ws => flagAfter cfg (tick cfg w firstRun).firstRun ws

/-- The events of the `for` loop over its first iterations, one per world,
starting with the given value of `firstRun`; `main` enters the loop with
`firstRun = true` (line 52). -/
def mainLoop (cfg : Config) : Bool → List World → List Event
  | _, [] => []
  | firstRun, w :: ws =>
    iteration cfg w firstRun ++ mainLoop cfg (tick cfg w firstRun).firstRun ws

/-! ## Concrete worlds used to exercise the theorems -/

/-- A configuration: record `home.example.com` in zone `Z1EXAMPLE`. -/
def exampleConfig : Config := ⟨"home.example.com", "Z1EXAMPLE"⟩

/-- The probe answers with the document whose member `ip` is the given string. -/
def probeBody (ip : String) : HttpResult :=
  .body (.valid (.object [("ip", .string ip), ("country", .string "Nowhere"), ("cc", .string "XX")]))

/-- The zone answers with one record set of the given name holding one value. -/
def zoneWith (name value : String) : ListResult :=
  ⟨some ⟨[some ⟨some name, some "A", some 60, [some ⟨some value⟩]⟩]⟩, none⟩

/-- A world: the probe sees `observed`, the zone publishes `published` under
the configured name, and the provider answers a change request with `change`. -/
def worldOf (observed published : String) (change : Option Error) : World :=
  ⟨fun _ => probeBody observed, fun _ => zoneWith "home.example.com." published, fun _ => change⟩

/-- The probe sees `203.0.113.8` and the zone lists no record set. -/
def worldNoRecordSets : World :=
  ⟨fun _ => probeBody "203.0.113.8", fun _ => ⟨some ⟨[]⟩, none⟩, fun _ => none⟩

/-- The probe answers with the document `{}`; the zone publishes `203.0.113.7`. -/
def worldEmptyDoc : World :=
  ⟨fun _ => .body (.valid (.object [])), fun _ => zoneWith "home.example.com." "203.0.113.7",
    fun _ => none⟩

/-- The probe sees `203.0.113.8`; the zone has no record `home.example.com` and
its listing starts at the next name, `mail.example.com.`, with `198.51.100.1`. -/
def worldNeighbour : World :=
  ⟨fun _ => probeBody "203.0.113.8", fun _ => zoneWith "mail.example.com." "198.51.100.1",
    fun _ => none⟩

/-! ## Notions of the specification, stated after its words -/

/-- Splits a list of characters at every dot. -/
def splitDots : List Char → List (List Char)
  | [] => [[]]
  | c :: cs =>
    if c = '.' then [] :: splitDots cs
    else match splitDots cs with
      | [] => [[c]]
      | part :: parts => (c :: part) :: parts

/-- An octet of a canonical IPv4, after the specification: decimal digits, no
leading zero, a value in [0,255]. -/
def specValidOctet (cs : List Char) : Bool :=
  !cs.isEmpty && cs.all Char.isDigit && (cs.length == 1 || cs.head? != some '0') &&
    decide (cs.foldl (fun n c => 10 * n + (c.toNat - 48)) 0 ≤ 255)

/-- A syntactically valid dotted-decimal IPv4, after the specification: four
octets, each in [0,255], no leading zeros. -/
def specValidIPv4 (s : String) : Bool :=
  (splitDots s.data).length == 4 && (splitDots s.data).all specValidOctet

/-- The canonical form of the change detector, after the specification: it
eliminates whitespace and case variation. -/
def specCanon (s : String) : List Char :=
  (s.data.filter (fun c => !c.isWhitespace)).map Char.toLower

/-- DNS-name normalization, after the specification: case-insensitive, and a
trailing dot is tolerated. -/
def specNormalizeName (s : String) : List Char :=
  let cs := s.data.map Char.toLower
  if cs.getLast? = some '.' then cs.dropLast else cs

/-! ## Observations on traces -/

/-- The event is a `ChangeResourceRecordSets` request. -/
def isChangeCall : Event → Bool
  | .changeResourceRecordSets _ => true
  | _ => false

/-- The event is a `ListResourceRecordSets` request. -/
def isListCall : Event → Bool
  | .listResourceRecordSets _ => true
  | _ => false

/-- The event is a call of the zone client. -/
def isZoneCall (e : Event) : Bool := isListCall e || isChangeCall e

/-- The event is a log line with the given message. -/
def isLog (m : String) : Event → Bool
  | .log _ _ msg => msg == m
  | _ => false

/-- The tick got past both the probe and the zone read (it reached line 73). -/
def passes (cfg : Config) (w : World) : Bool :=
  match (getCurrentIp w).val with
  | (some _, _) => false
  | (none, _) =>
    match (getDomainIp w cfg.domainName cfg.hostedZoneId).val with
    | .ret (none, _) => true
    | _ => false

/-- The event is a log line of level error. -/
def isErrorEvent : Event → Bool
  | .log .error _ _ => true
  | _ => false

/-! ## Basic facts -/

/-- The probe makes one GET, whatever it returns. -/
theorem getCurrentIp_trace (w : World) :
    (getCurrentIp w).trace = [.httpGet "https://api.myip.com"] := by
  unfold getCurrentIp
  dsimp only
  generalize w.httpGet "https://api.myip.com" = r
  cases r with
  | getErr e => rfl
  | readErr e => rfl
  | body b =>
    dsimp only
    generalize unmarshal b = u
    rcases u with ⟨_ | e, ip⟩ <;> rfl

/-- The zone read makes one list request, whatever it returns. -/
theorem getDomainIp_trace (w : World) (name zone : String) :
    (getDomainIp w name zone).trace = [.listResourceRecordSets (listInput name zone)] := by
  unfold getDomainIp
  dsimp only
  generalize w.listResourceRecordSets (listInput name zone) = r
  rcases r with ⟨resp, _ | e⟩
  · dsimp only
    generalize firstValue resp = v
    cases v <;> rfl
  · rfl

/-- A tick whose probe returns an error. -/
theorem tick_probe_err (cfg : Config) (w : World) (firstRun : Bool) (e : Error) (s : String)
    (hprobe : (getCurrentIp w).val = (some e, s)) :
    (tick cfg w firstRun).err = some e ∧ (tick cfg w firstRun).firstRun = firstRun ∧
    (tick cfg w firstRun).trace = [.httpGet "https://api.myip.com"] := by
  simp [tick, tickBody, hprobe, getCurrentIp_trace]

/-- A tick whose zone read returns an error. -/
theorem tick_read_err (cfg : Config) (w : World) (firstRun : Bool) (o s : String) (e : Error)
    (hprobe : (getCurrentIp w).val = (none, o))
    (hread : (getDomainIp w cfg.domainName cfg.hostedZoneId).val = .ret (some e, s)) :
    (tick cfg w firstRun).err = some e ∧ (tick cfg w firstRun).firstRun = firstRun ∧
    (tick cfg w firstRun).trace = [.httpGet "https://api.myip.com",
      .listResourceRecordSets (listInput cfg.domainName cfg.hostedZoneId)] := by
  simp [tick, tickBody, hprobe, hread, getCurrentIp_trace, getDomainIp_trace]

/-- A tick whose zone read panics: the deferred function builds the error. -/
theorem tick_read_panic (cfg : Config) (w : World) (firstRun : Bool) (o re : String)
    (hprobe : (getCurrentIp w).val = (none, o))
    (hread : (getDomainIp w cfg.domainName cfg.hostedZoneId).val = .panic re) :
    (tick cfg w firstRun).err = some (panicMessage o "" re) ∧
    (tick cfg w firstRun).firstRun = firstRun ∧
    (tick cfg w firstRun).trace = [.httpGet "https://api.myip.com",
      .listResourceRecordSets (listInput cfg.domainName cfg.hostedZoneId)] := by
  simp [tick, tickBody, hprobe, hread, getCurrentIp_trace, getDomainIp_trace]

/-- A tick whose probe and zone read yield the same string. -/
theorem tick_same (cfg : Config) (w : World) (firstRun : Bool) (a : String)
    (hprobe : (getCurrentIp w).val = (none, a))
    (hread : (getDomainIp w cfg.domainName cfg.hostedZoneId).val = .ret (none, a)) :
    (tick cfg w firstRun).err = none ∧ (tick cfg w firstRun).firstRun = false ∧
    (tick cfg w firstRun).trace = [.httpGet "https://api.myip.com",
      .listResourceRecordSets (listInput cfg.domainName cfg.hostedZoneId)] ++
      (if firstRun then [logStarted a a] else []) := by
  cases firstRun <;>
    simp [tick, tickBody, hprobe, hread, getCurrentIp_trace, getDomainIp_trace]

/-- A tick whose probe and zone read yield different strings. -/
theorem tick_diff (cfg : Config) (w : World) (firstRun : Bool) (o p : String)
    (hprobe : (getCurrentIp w).val = (none, o))
    (hread : (getDomainIp w cfg.domainName cfg.hostedZoneId).val = .ret (none, p))
    (hne : o ≠ p) :
    (tick cfg w firstRun).err =
      w.changeResourceRecordSets (changeInput cfg.domainName o cfg.hostedZoneId) ∧
    (tick cfg w firstRun).firstRun = false ∧
    (tick cfg w firstRun).trace = [.httpGet "https://api.myip.com",
      .listResourceRecordSets (listInput cfg.domainName cfg.hostedZoneId)] ++
      (if firstRun then [logStarted o p] else []) ++
      [logChangeDetected o p,
       .changeResourceRecordSets (changeInput cfg.domainName o cfg.hostedZoneId)] ++
      (match w.changeResourceRecordSets (changeInput cfg.domainName o cfg.hostedZoneId) with
        | some _ => []
        | none => [logChanged o]) := by
  cases firstRun <;>
    cases h : w.changeResourceRecordSets (changeInput cfg.domainName o cfg.hostedZoneId) <;>
    simp [tick, tickBody, hprobe, hread, getCurrentIp_trace, getDomainIp_trace, hne,
      updateDomainIp, h]

/-- The flag stays set exactly when it was set and the tick did not get past
the probe and the read. -/
theorem tick_firstRun (cfg : Config) (w : World) (firstRun : Bool) :
    (tick cfg w firstRun).firstRun = (firstRun && !passes cfg w) := by
  rcases hc : (getCurrentIp w).val with ⟨_ | e, o⟩
  · rcases hd : (getDomainIp w cfg.domainName cfg.hostedZoneId).val with ⟨_ | e, p⟩ | re
    · have hp : passes cfg w = true := by simp [passes, hc, hd]
      by_cases hop : o = p
      · subst hop
        simp [(tick_same cfg w firstRun o hc hd).2.1, hp]
      · simp [(tick_diff cfg w firstRun o p hc hd hop).2.1, hp]
    · have hp : passes cfg w = false := by simp [passes, hc, hd]
      simp [(tick_read_err cfg w firstRun o p e hc hd).2.1, hp]
    · have hp : passes cfg w = false := by simp [passes, hc, hd]
      simp [(tick_read_panic cfg w firstRun o re hc hd).2.1, hp]
  · have hp : passes cfg w = false := by simp [passes, hc]
    simp [(tick_probe_err cfg w firstRun e o hc).2.1, hp]

/-- A cleared flag stays cleared. -/
theorem flagAfter_false (cfg : Config) (ws : List World) : flagAfter cfg false ws = false := by
  induction ws with
  | nil => rfl
  | cons w ws ih => simp [flagAfter, tick_firstRun, ih]

/-- The flag is still set exactly when no tick got past the probe and the read. -/
theorem flagAfter_true (cfg : Config) (ws : List World) :
    flagAfter cfg true ws = true ↔ ∀ x ∈ ws, passes cfg x = false := by
  induction ws with
  | nil => simp [flagAfter]
  | cons w ws ih =>
    simp only [flagAfter, tick_firstRun, List.mem_cons, forall_eq_or_imp]
    cases hp : passes cfg w
    · simpa using ih
    · simp [flagAfter_false]

/-- The change requests of a tick do not depend on the flag `firstRun`. -/
theorem tick_changeCalls_flag (cfg : Config) (w : World) (f g : Bool) :
    (tick cfg w f).trace.filter isChangeCall = (tick cfg w g).trace.filter isChangeCall := by
  rcases hc : (getCurrentIp w).val with ⟨_ | e, o⟩
  · rcases hd : (getDomainIp w cfg.domainName cfg.hostedZoneId).val with ⟨_ | e, p⟩ | re
    · by_cases hop : o = p
      · subst hop
        rw [(tick_same cfg w f o hc hd).2.2, (tick_same cfg w g o hc hd).2.2]
        cases f <;> cases g <;> simp [isChangeCall, logStarted]
      · rw [(tick_diff cfg w f o p hc hd hop).2.2, (tick_diff cfg w g o p hc hd hop).2.2]
        cases f <;> cases g <;> simp [isChangeCall, logStarted]
    · rw [(tick_read_err cfg w f o p e hc hd).2.2, (tick_read_err cfg w g o p e hc hd).2.2]
    · rw [(tick_read_panic cfg w f o re hc hd).2.2, (tick_read_panic cfg w g o re hc hd).2.2]
  · rw [(tick_probe_err cfg w f e o hc).2.2, (tick_probe_err cfg w g e o hc).2.2]

/-- The five ways a tick can go. -/
theorem tick_cases (cfg : Config) (w : World) :
    (∃ e s, (getCurrentIp w).val = (some e, s)) ∨
    (∃ o e s, (getCurrentIp w).val = (none, o) ∧
      (getDomainIp w cfg.domainName cfg.hostedZoneId).val = .ret (some e, s)) ∨
    (∃ o re, (getCurrentIp w).val = (none, o) ∧
      (getDomainIp w cfg.domainName cfg.hostedZoneId).val = .panic re) ∨
    (∃ o, (getCurrentIp w).val = (none, o) ∧
      (getDomainIp w cfg.domainName cfg.hostedZoneId).val = .ret (none, o)) ∨
    (∃ o p, (getCurrentIp w).val = (none, o) ∧
      (getDomainIp w cfg.domainName cfg.hostedZoneId).val = .ret (none, p) ∧ o ≠ p) := by
  rcases hc : (getCurrentIp w).val with ⟨_ | e, o⟩
  · rcases hd : (getDomainIp w cfg.domainName cfg.hostedZoneId).val with ⟨_ | e, p⟩ | re
    · by_cases hop : o = p
      · subst hop
        exact Or.inr (Or.inr (Or.inr (Or.inl ⟨o, rfl, rfl⟩)))
      · exact Or.inr (Or.inr (Or.inr (Or.inr ⟨o, p, rfl, rfl, hop⟩)))
    · exact Or.inr (Or.inl ⟨o, e, p, rfl, rfl⟩)
    · exact Or.inr (Or.inr (Or.inl ⟨o, re, rfl, rfl⟩))
  · exact Or.inl ⟨e, o, rfl⟩

/-- The tick closure itself writes no error-level line. -/
theorem tick_trace_no_error (cfg : Config) (w : World) (firstRun : Bool) :
    (tick cfg w firstRun).trace.filter isErrorEvent = [] := by
  rcases tick_cases cfg w with ⟨e, s, hc⟩ | ⟨o, e, s, hc, hd⟩ | ⟨o, re, hc, hd⟩ | ⟨o, hc, hd⟩ |
    ⟨o, p, hc, hd, hne⟩
  · simp [(tick_probe_err cfg w firstRun e s hc).2.2, isErrorEvent]
  · simp [(tick_read_err cfg w firstRun o s e hc hd).2.2, isErrorEvent]
  · simp [(tick_read_panic cfg w firstRun o re hc hd).2.2, isErrorEvent]
  · rw [(tick_same cfg w firstRun o hc hd).2.2]
    cases firstRun <;> simp [isErrorEvent, logStarted]
  · rw [(tick_diff cfg w firstRun o p hc hd hne).2.2]
    cases firstRun <;>
      cases w.changeResourceRecordSets (changeInput cfg.domainName o cfg.hostedZoneId) <;>
      simp [isErrorEvent, logStarted, logChangeDetected, logChanged]

/-- A tick that does not get past the probe and the read returns an error and
writes no log line. -/
theorem tick_not_passes (cfg : Config) (w : World) (firstRun : Bool)
    (h : passes cfg w = false) :
    (tick cfg w firstRun).err ≠ none ∧
    ∀ ev ∈ (tick cfg w firstRun).trace, ∀ m, isLog m ev = false := by
  rcases tick_cases cfg w with ⟨e, s, hc⟩ | ⟨o, e, s, hc, hd⟩ | ⟨o, re, hc, hd⟩ | ⟨o, hc, hd⟩ |
    ⟨o, p, hc, hd, hne⟩
  · obtain ⟨h1, -, h3⟩ := tick_probe_err cfg w firstRun e s hc
    simp [h1, h3, isLog]
  · obtain ⟨h1, -, h3⟩ := tick_read_err cfg w firstRun o s e hc hd
    simp [h1, h3, isLog]
  · obtain ⟨h1, -, h3⟩ := tick_read_panic cfg w firstRun o re hc hd
    simp [h1, h3, isLog]
  · simp [passes, hc, hd] at h
  · simp [passes, hc, hd] at h

/-- With the flag cleared a tick does not log `Started`. -/
theorem tick_false_no_started (cfg : Config) (w : World) :
    ∀ ev ∈ (tick cfg w false).trace, isLog "Started" ev = false := by
  rcases tick_cases cfg w with ⟨e, s, hc⟩ | ⟨o, e, s, hc, hd⟩ | ⟨o, re, hc, hd⟩ | ⟨o, hc, hd⟩ |
    ⟨o, p, hc, hd, hne⟩
  · simp [(tick_probe_err cfg w false e s hc).2.2, isLog]
  · simp [(tick_read_err cfg w false o s e hc hd).2.2, isLog]
  · simp [(tick_read_panic cfg w false o re hc hd).2.2, isLog]
  · simp [(tick_same cfg w false o hc hd).2.2, isLog]
  · rw [(tick_diff cfg w false o p hc hd hne).2.2]
    cases w.changeResourceRecordSets (changeInput cfg.domainName o cfg.hostedZoneId) <;>
      simp [isLog, logChangeDetected, logChanged]

/-- The loop over two runs of iterations. -/
theorem mainLoop_append (cfg : Config) (f : Bool) (xs ys : List World) :
    mainLoop cfg f (xs ++ ys) = mainLoop cfg f xs ++ mainLoop cfg (flagAfter cfg f xs) ys := by
  induction xs generalizing f with
  | nil => rfl
  | cons x xs ih => simp [mainLoop, flagAfter, ih]

/-- The worlds split at the first tick that gets past the probe and the read. -/
theorem split_first_passing (cfg : Config) (ws : List World)
    (h : ∃ w ∈ ws, passes cfg w = true) :
    ∃ pre w post, ws = pre ++ w :: post ∧ (∀ x ∈ pre, passes cfg x = false) ∧
      passes cfg w = true := by
  induction ws with
  | nil => simp at h
  | cons a ws ih =>
    cases ha : passes cfg a
    · have h2 : ∃ w ∈ ws, passes cfg w = true := by
        obtain ⟨w, hw, hp⟩ := h
        rcases List.mem_cons.1 hw with rfl | hw
        · rw [ha] at hp
          cases hp
        · exact ⟨w, hw, hp⟩
      obtain ⟨pre, w, post, rfl, hpre, hw⟩ := ih h2
      refine ⟨a :: pre, w, post, rfl, ?_, hw⟩
      intro x hx
      rcases List.mem_cons.1 hx with rfl | hx
      · exact ha
      · exact hpre x hx
    · exact ⟨[], a, ws, rfl, by simp, ha⟩

/-- Iterations that do not get past the probe and the read write no log
line other than `loop error`. -/
theorem mainLoop_not_passing (cfg : Config) (pre : List World)
    (h : ∀ x ∈ pre, passes cfg x = false) (f : Bool) :
    ∀ ev ∈ mainLoop cfg f pre, ∀ m, m ≠ "loop error" → isLog m ev = false := by
  induction pre generalizing f with
  | nil => simp [mainLoop]
  | cons x xs ih =>
    intro ev hev m hm
    have hx : passes cfg x = false := h x (List.mem_cons_self _ _)
    simp only [mainLoop, iteration, List.mem_append] at hev
    rcases hev with ((hev | hev) | hev) | hev
    · exact (tick_not_passes cfg x f hx).2 ev hev m
    · cases he : (tick cfg x f).err with
      | none => simp [he] at hev
      | some e =>
        simp only [he, List.mem_singleton] at hev
        subst hev
        simpa [isLog, logLoopError] using fun hh => hm hh.symm
    · simp only [List.mem_singleton] at hev
      subst hev
      rfl
    · exact ih (fun y hy => h y (List.mem_cons_of_mem _ hy)) _ ev hev m hm

/-- Once the flag is cleared the loop never logs `Started`. -/
theorem mainLoop_false_no_started (cfg : Config) (post : List World) :
    ∀ ev ∈ mainLoop cfg false post, isLog "Started" ev = false := by
  induction post with
  | nil => simp [mainLoop]
  | cons x xs ih =>
    intro ev hev
    have hflag : (tick cfg x false).firstRun = false := by simp [tick_firstRun]
    simp only [mainLoop, iteration, List.mem_append, hflag] at hev
    rcases hev with ((hev | hev) | hev) | hev
    · exact tick_false_no_started cfg x ev hev
    · cases he : (tick cfg x false).err with
      | none => simp [he] at hev
      | some e =>
        simp only [he, List.mem_singleton] at hev
        subst hev
        simp [isLog, logLoopError]
    · simp only [List.mem_singleton] at hev
      subst hev
      rfl
    · exact ih ev hev

/-- The first iteration that gets past the probe and the read starts with the
GET, the list request and the line `Started`, and has no other `Started`. -/
theorem iteration_passes_true (cfg : Config) (w : World) (o p : String)
    (hc : (getCurrentIp w).val = (none, o))
    (hd : (getDomainIp w cfg.domainName cfg.hostedZoneId).val = .ret (none, p)) :
    ∃ tail, iteration cfg w true = [.httpGet "https://api.myip.com",
        .listResourceRecordSets (listInput cfg.domainName cfg.hostedZoneId),
        logStarted o p] ++ tail ∧
      ∀ ev ∈ tail, isLog "Started" ev = false := by
  by_cases hop : o = p
  · subst hop
    obtain ⟨h1, -, h3⟩ := tick_same cfg w true o hc hd
    refine ⟨[.sleep Minute], ?_, ?_⟩
    · simp [iteration, h1, h3]
    · simp [isLog]
  · obtain ⟨h1, -, h3⟩ := tick_diff cfg w true o p hc hd hop
    cases hu : w.changeResourceRecordSets (changeInput cfg.domainName o cfg.hostedZoneId) with
    | none =>
      rw [hu] at h1 h3
      refine ⟨[logChangeDetected o p,
        .changeResourceRecordSets (changeInput cfg.domainName o cfg.hostedZoneId),
        logChanged o, .sleep Minute], ?_, ?_⟩
      · simp [iteration, h1, h3]
      · simp [isLog, logChangeDetected, logChanged]
    | some e =>
      rw [hu] at h1 h3
      refine ⟨[logChangeDetected o p,
        .changeResourceRecordSets (changeInput cfg.domainName o cfg.hostedZoneId),
        logLoopError e, .sleep Minute], ?_, ?_⟩
      · simp [iteration, h1, h3]
      · simp [isLog, logChangeDetected, logLoopError]

/-- Decoding leaves no error exactly when none was saved before and every
member that selects the field holds a string or `null`. -/
theorem decodeMembers_err (ms : List (String × Json)) (ip : String) (saved : Option Error) :
    (decodeMembers ms (ip, saved)).2 = none ↔
      saved = none ∧ ∀ kv ∈ ms, matchesFieldIP kv.1 = true →
        kv.2 = .null ∨ ∃ s, kv.2 = .string s := by
  induction ms generalizing ip saved with
  | nil => simp [decodeMembers]
  | cons kv ms ih =>
    obtain ⟨k, v⟩ := kv
    cases hk : matchesFieldIP k
    · simp [decodeMembers, hk, ih]
    · cases v <;> cases saved <;> simp [decodeMembers, hk, ih]

/-- Decoding runs through the members from left to right. -/
theorem decodeMembers_append (xs ys : List (String × Json)) (st : String × Option Error) :
    decodeMembers (xs ++ ys) st = decodeMembers ys (decodeMembers xs st) := by
  induction xs generalizing st with
  | nil => rfl
  | cons kv xs ih =>
    obtain ⟨k, v⟩ := kv
    obtain ⟨ip, saved⟩ := st
    cases hk : matchesFieldIP k
    · simp [decodeMembers, hk, ih]
    · cases v <;> simp [decodeMembers, hk, ih]

/-- Members that store no string leave the field as it was. -/
theorem decodeMembers_keep (ms : List (String × Json)) (ip : String) (saved : Option Error)
    (h : ∀ kv ∈ ms, matchesFieldIP kv.1 = true → ∀ s, kv.2 ≠ .string s) :
    (decodeMembers ms (ip, saved)).1 = ip := by
  induction ms generalizing ip saved with
  | nil => rfl
  | cons kv ms ih =>
    obtain ⟨k, v⟩ := kv
    have hrest : ∀ kv ∈ ms, matchesFieldIP kv.1 = true → ∀ s, kv.2 ≠ .string s :=
      fun kv hkv => h kv (List.mem_cons_of_mem _ hkv)
    cases hk : matchesFieldIP k
    · simp [decodeMembers, hk, ih _ _ hrest]
    · cases v with
      | string s => exact absurd rfl (h (k, .string s) (List.mem_cons_self _ _) hk s)
      | null => simp [decodeMembers, hk, ih _ _ hrest]
      | bool b => simp [decodeMembers, hk, ih _ _ hrest]
      | number n => simp [decodeMembers, hk, ih _ _ hrest]
      | array a => simp [decodeMembers, hk, ih _ _ hrest]
      | object o => simp [decodeMembers, hk, ih _ _ hrest]

/-- C1: when the probe yields `o`, the zone read yields `p` and `o ≠ p`, the
tick sends exactly one change request, a batch with the single change UPSERT of
the configured name, type A, TTL 60 and the single value `o`, in the configured
hosted zone, after logging the detected change; and if the provider accepts
the request the tick returns no error and ends with `Changed domainIP`. -/
theorem tick_change_issues_one_upsert (cfg : Config) (w : World) (firstRun : Bool)
    (o p : String)
    (hprobe : (getCurrentIp w).val = (none, o))
    (hread : (getDomainIp w cfg.domainName cfg.hostedZoneId).val = .ret (none, p))
    (hne : o ≠ p) :
    (tick cfg w firstRun).trace.filter isChangeCall =
      [.changeResourceRecordSets
        { ChangeBatch := some
            { Changes := [some
                { Action := some "UPSERT"
                  ResourceRecordSet := some
                    { Name := some cfg.domainName
                      Type_ := some "A"
                      TTL := some 60
                      ResourceRecords := [some { Value := some o }] } }] }
          HostedZoneId := some cfg.hostedZoneId }] ∧
    logChangeDetected o p ∈ (tick cfg w firstRun).trace ∧
    (w.changeResourceRecordSets (changeInput cfg.domainName o cfg.hostedZoneId) = none →
      (tick cfg w firstRun).err = none ∧
      (tick cfg w firstRun).trace.getLast? = some (logChanged o)) := by
  have hc := getCurrentIp_trace w
  have hd := getDomainIp_trace w cfg.domainName cfg.hostedZoneId
  refine ⟨?_, ?_, ?_⟩
  · simp only [tick, tickBody, hprobe, hread, hc, hd, updateDomainIp]
    cases firstRun <;> cases w.changeResourceRecordSets (changeInput cfg.domainName o cfg.hostedZoneId) <;>
      simp [hne, isChangeCall, changeInput, logStarted, logChangeDetected, logChanged]
  · simp only [tick, tickBody, hprobe, hread, hc, hd, updateDomainIp]
    cases firstRun <;> cases w.changeResourceRecordSets (changeInput cfg.domainName o cfg.hostedZoneId) <;>
      simp [hne]
  · intro hacc
    simp only [tick, tickBody, hprobe, hread, hc, hd, updateDomainIp, hacc]
    cases firstRun <;> simp [hne]

/-- C1 at scenario S2: the probe sees `203.0.113.8`, the zone publishes
`203.0.113.7`, the provider accepts the change. -/
theorem tick_change_issues_one_upsert_witness :
    (getCurrentIp (worldOf "203.0.113.8" "203.0.113.7" none)).val = (none, "203.0.113.8") ∧
    (getDomainIp (worldOf "203.0.113.8" "203.0.113.7" none) exampleConfig.domainName
      exampleConfig.hostedZoneId).val = .ret (none, "203.0.113.7") ∧
    (tick exampleConfig (worldOf "203.0.113.8" "203.0.113.7" none) true).trace.filter isChangeCall =
      [.changeResourceRecordSets
        { ChangeBatch := some
            { Changes := [some
                { Action := some "UPSERT"
                  ResourceRecordSet := some
                    { Name := some "home.example.com"
                      Type_ := some "A"
                      TTL := some 60
                      ResourceRecords := [some { Value := some "203.0.113.8" }] } }] }
          HostedZoneId := some "Z1EXAMPLE" }] ∧
    (tick exampleConfig (worldOf "203.0.113.8" "203.0.113.7" none) true).err = none :=
  have h := tick_change_issues_one_upsert exampleConfig (worldOf "203.0.113.8" "203.0.113.7" none)
    true "203.0.113.8" "203.0.113.7" (by rfl) (by rfl) (by decide)
  ⟨by rfl, by rfl, h.1, (h.2.2 (by rfl)).1⟩

/-- C2: when the probe and the zone read yield the same string `a`, the tick
sends no change request and returns no error, so the loop logs no error; it
logs `Started` (once, with both fields `a`) exactly when none of the earlier
ticks of the process got past both the probe and the read. -/
theorem tick_equal_no_upsert (cfg : Config) (pre : List World) (w : World) (a : String)
    (hprobe : (getCurrentIp w).val = (none, a))
    (hread : (getDomainIp w cfg.domainName cfg.hostedZoneId).val = .ret (none, a)) :
    (tick cfg w (flagAfter cfg true pre)).trace.filter isChangeCall = [] ∧
    (tick cfg w (flagAfter cfg true pre)).err = none ∧
    (iteration cfg w (flagAfter cfg true pre)).filter (isLog "loop error") = [] ∧
    (tick cfg w (flagAfter cfg true pre)).trace.filter (isLog "Started") =
      (if pre.all (fun x => !passes cfg x) then [logStarted a a] else []) := by
  obtain ⟨herr, -, htr⟩ := tick_same cfg w (flagAfter cfg true pre) a hprobe hread
  have hflag : flagAfter cfg true pre = pre.all (fun x => !passes cfg x) := by
    rw [Bool.eq_iff_iff, flagAfter_true]
    simp
  refine ⟨?_, herr, ?_, ?_⟩
  · rw [htr]
    cases flagAfter cfg true pre <;> simp [isChangeCall, logStarted]
  · simp only [iteration, herr, htr]
    cases flagAfter cfg true pre <;> simp [isLog, logStarted]
  · rw [htr, hflag]
    cases pre.all (fun x => !passes cfg x) <;> simp [isLog, logStarted]

/-- C2 at scenario S1, as the first tick and as a tick after a first one. -/
theorem tick_equal_no_upsert_witness :
    ((tick exampleConfig (worldOf "203.0.113.7" "203.0.113.7" none) true).trace.filter
        isChangeCall = [] ∧
      (tick exampleConfig (worldOf "203.0.113.7" "203.0.113.7" none) true).err = none ∧
      (tick exampleConfig (worldOf "203.0.113.7" "203.0.113.7" none) true).trace.filter
        (isLog "Started") = [logStarted "203.0.113.7" "203.0.113.7"]) ∧
    (tick exampleConfig (worldOf "203.0.113.7" "203.0.113.7" none)
      (flagAfter exampleConfig true [worldOf "203.0.113.7" "203.0.113.7" none])).trace.filter
        (isLog "Started") = [] :=
  have h0 := tick_equal_no_upsert exampleConfig [] (worldOf "203.0.113.7" "203.0.113.7" none)
    "203.0.113.7" (by rfl) (by rfl)
  have h1 := tick_equal_no_upsert exampleConfig [worldOf "203.0.113.7" "203.0.113.7" none]
    (worldOf "203.0.113.7" "203.0.113.7" none) "203.0.113.7" (by rfl) (by rfl)
  ⟨⟨h0.1, h0.2.1, h0.2.2.2⟩, h1.2.2.2⟩

/-- C5: when the GET or the body read fails with `e`, the tick returns `e`,
makes no zone call, leaves `firstRun` as it was, and every later iteration of
the loop runs exactly as it would have run without the failed one. -/
theorem tick_probe_transport_error (cfg : Config) (w : World) (firstRun : Bool) (e : Error)
    (h : w.httpGet "https://api.myip.com" = .getErr e ∨
      w.httpGet "https://api.myip.com" = .readErr e) :
    (tick cfg w firstRun).err = some e ∧
    (tick cfg w firstRun).trace.filter isZoneCall = [] ∧
    (tick cfg w firstRun).firstRun = firstRun ∧
    (∀ next : World, tick cfg next (tick cfg w firstRun).firstRun = tick cfg next firstRun) ∧
    (∀ ws : List World,
      mainLoop cfg firstRun (w :: ws) = iteration cfg w firstRun ++ mainLoop cfg firstRun ws) ∧
    (∀ ws : List World, flagAfter cfg firstRun (w :: ws) = flagAfter cfg firstRun ws) := by
  have hprobe : (getCurrentIp w).val = (some e, "") := by
    rcases h with h | h <;> simp [getCurrentIp, h]
  obtain ⟨herr, hflag, htr⟩ := tick_probe_err cfg w firstRun e "" hprobe
  refine ⟨herr, ?_, hflag, ?_, ?_, ?_⟩
  · simp [htr, isZoneCall, isListCall, isChangeCall]
  · intro next
    rw [hflag]
  · intro ws
    simp [mainLoop, hflag]
  · intro ws
    simp [flagAfter, hflag]

/-- C5 at scenario S3: the GET fails with a timeout. -/
theorem tick_probe_transport_error_witness :
    (tick exampleConfig ⟨fun _ => .getErr "timeout", fun _ => ⟨none, none⟩, fun _ => none⟩ true).err =
      some "timeout" ∧
    (tick exampleConfig ⟨fun _ => .getErr "timeout", fun _ => ⟨none, none⟩, fun _ => none⟩
      true).trace.filter isZoneCall = [] ∧
    (tick exampleConfig ⟨fun _ => .getErr "timeout", fun _ => ⟨none, none⟩, fun _ => none⟩
      true).firstRun = true :=
  have h := tick_probe_transport_error exampleConfig
    ⟨fun _ => .getErr "timeout", fun _ => ⟨none, none⟩, fun _ => none⟩ true "timeout" (Or.inl rfl)
  ⟨h.1, h.2.1, h.2.2.1⟩

/-- C8: when the probe yields `o`, the zone read yields `p`, `o ≠ p` and the
provider answers the change request with the error `e`, the tick returns `e`
and does not log `Changed domainIP`; a following tick with the same probe and
read sends the same single change request again; the flag `firstRun` is all
that one iteration hands to the next, and the change requests of a tick do not
depend on it. -/
theorem tick_upsert_failure (cfg : Config) (w : World) (firstRun : Bool) (o p : String)
    (e : Error)
    (hprobe : (getCurrentIp w).val = (none, o))
    (hread : (getDomainIp w cfg.domainName cfg.hostedZoneId).val = .ret (none, p))
    (hne : o ≠ p)
    (hfail : w.changeResourceRecordSets (changeInput cfg.domainName o cfg.hostedZoneId) = some e) :
    (tick cfg w firstRun).err = some e ∧
    (∀ ev ∈ (tick cfg w firstRun).trace, isLog "Changed domainIP" ev = false) ∧
    (tick cfg w firstRun).trace.filter isChangeCall =
      [.changeResourceRecordSets (changeInput cfg.domainName o cfg.hostedZoneId)] ∧
    (∀ next : World, (getCurrentIp next).val = (none, o) →
      (getDomainIp next cfg.domainName cfg.hostedZoneId).val = .ret (none, p) →
      (tick cfg next (tick cfg w firstRun).firstRun).trace.filter isChangeCall =
        (tick cfg w firstRun).trace.filter isChangeCall) ∧
    (∀ ws : List World, mainLoop cfg firstRun (w :: ws) =
      iteration cfg w firstRun ++ mainLoop cfg (tick cfg w firstRun).firstRun ws) ∧
    (∀ (any : World) (f g : Bool),
      (tick cfg any f).trace.filter isChangeCall = (tick cfg any g).trace.filter isChangeCall) := by
  obtain ⟨herr, -, htr⟩ := tick_diff cfg w firstRun o p hprobe hread hne
  have hcalls : ∀ (x : World) (f : Bool), (getCurrentIp x).val = (none, o) →
      (getDomainIp x cfg.domainName cfg.hostedZoneId).val = .ret (none, p) →
      (tick cfg x f).trace.filter isChangeCall =
        [.changeResourceRecordSets (changeInput cfg.domainName o cfg.hostedZoneId)] := by
    intro x f hx hy
    rw [(tick_diff cfg x f o p hx hy hne).2.2]
    cases f <;>
      cases x.changeResourceRecordSets (changeInput cfg.domainName o cfg.hostedZoneId) <;>
      simp [isChangeCall, logStarted, logChangeDetected, logChanged]
  refine ⟨by rw [herr, hfail], ?_, hcalls w firstRun hprobe hread, ?_, ?_, ?_⟩
  · rw [htr, hfail]
    cases firstRun <;> simp [isLog, logStarted, logChangeDetected]
  · intro next hx hy
    rw [hcalls next _ hx hy, hcalls w firstRun hprobe hread]
  · intro ws
    rfl
  · intro any f g
    exact tick_changeCalls_flag cfg any f g

/-- C8 at scenario S4: the provider rejects the change, twice in a row. -/
theorem tick_upsert_failure_witness :
    (tick exampleConfig (worldOf "203.0.113.9" "203.0.113.7" (some "ZoneRejected")) true).err =
      some "ZoneRejected" ∧
    (tick exampleConfig (worldOf "203.0.113.9" "203.0.113.7" (some "ZoneRejected"))
      (tick exampleConfig (worldOf "203.0.113.9" "203.0.113.7" (some "ZoneRejected"))
        true).firstRun).trace.filter isChangeCall =
      [.changeResourceRecordSets (changeInput "home.example.com" "203.0.113.9" "Z1EXAMPLE")] :=
  have h := tick_upsert_failure exampleConfig
    (worldOf "203.0.113.9" "203.0.113.7" (some "ZoneRejected")) true "203.0.113.9" "203.0.113.7"
    "ZoneRejected" (by rfl) (by rfl) (by decide) (by rfl)
  ⟨h.1, (h.2.2.2.1 _ (by rfl) (by rfl)).trans h.2.2.1⟩

/-- C6: every failure in a tick ends in exactly one error event and the loop
goes on.  An error returned by the probe, by the zone read or by the change
request is returned by the tick; a panic in `getDomainIp` (an empty list of
record sets, an empty list of record values, a nil pointer) does not leave the
tick: the deferred function turns it into an error whose text carries
`currentIP` (the observed address) and `domainIP` (still empty, the read did
not return).  When the tick returns an error the iteration writes one
error-level line, `loop error` with that error, and none when it returns
none; in both cases the loop sleeps and runs the next iteration. -/
theorem tick_failure_one_loop_error (cfg : Config) (w : World) (firstRun : Bool)
    (ws : List World) :
    (∀ e s, (getCurrentIp w).val = (some e, s) → (tick cfg w firstRun).err = some e) ∧
    (∀ o e s, (getCurrentIp w).val = (none, o) →
      (getDomainIp w cfg.domainName cfg.hostedZoneId).val = .ret (some e, s) →
      (tick cfg w firstRun).err = some e) ∧
    (∀ o p e, (getCurrentIp w).val = (none, o) →
      (getDomainIp w cfg.domainName cfg.hostedZoneId).val = .ret (none, p) → o ≠ p →
      w.changeResourceRecordSets (changeInput cfg.domainName o cfg.hostedZoneId) = some e →
      (tick cfg w firstRun).err = some e) ∧
    (∀ o re, (getCurrentIp w).val = (none, o) →
      (getDomainIp w cfg.domainName cfg.hostedZoneId).val = .panic re →
      (tickBody cfg w firstRun).flow = .panicked re ∧
      (tick cfg w firstRun).err =
        some ("panic currentIP=" ++ o ++ ", domainIP=" ++ "" ++ ", err=" ++ re ++ "\n")) ∧
    (∀ r, w.listResourceRecordSets (listInput cfg.domainName cfg.hostedZoneId) = r →
      r.err = none →
      (r.resp = none ∨ (∃ rest, r.resp = some ⟨none :: rest⟩) ∨
        (∃ rrs rest rrest, r.resp = some ⟨some rrs :: rest⟩ ∧
          (rrs.ResourceRecords = none :: rrest ∨
           rrs.ResourceRecords = some ⟨none⟩ :: rrest)) →
        (getDomainIp w cfg.domainName cfg.hostedZoneId).val =
          .panic "runtime error: invalid memory address or nil pointer dereference") ∧
      (r.resp = some ⟨[]⟩ ∨
        (∃ rrs rest, r.resp = some ⟨some rrs :: rest⟩ ∧ rrs.ResourceRecords = []) →
        (getDomainIp w cfg.domainName cfg.hostedZoneId).val =
          .panic "runtime error: index out of range [0] with length 0")) ∧
    (∀ e, (tick cfg w firstRun).err = some e →
      (iteration cfg w firstRun).filter isErrorEvent = [.log .error [("error", e)] "loop error"]) ∧
    ((tick cfg w firstRun).err = none → (iteration cfg w firstRun).filter isErrorEvent = []) ∧
    (iteration cfg w firstRun).getLast? = some (.sleep (60 * 1000000000)) ∧
    mainLoop cfg firstRun (w :: ws) =
      iteration cfg w firstRun ++ mainLoop cfg (tick cfg w firstRun).firstRun ws := by
  refine ⟨?_, ?_, ?_, ?_, ?_, ?_, ?_, ?_, rfl⟩
  · intro e s hc
    exact (tick_probe_err cfg w firstRun e s hc).1
  · intro o e s hc hd
    exact (tick_read_err cfg w firstRun o s e hc hd).1
  · intro o p e hc hd hne hfail
    rw [(tick_diff cfg w firstRun o p hc hd hne).1, hfail]
  · intro o re hc hd
    refine ⟨?_, ?_⟩
    · simp [tickBody, hc, hd]
    · rw [(tick_read_panic cfg w firstRun o re hc hd).1]
      rfl
  · intro r hr herr
    refine ⟨?_, ?_⟩
    · rintro (h | ⟨rest, h⟩ | ⟨rrs, rest, rrest, h, h2 | h2⟩)
      · simp [getDomainIp, hr, herr, h, firstValue, nilPanic]
      · simp [getDomainIp, hr, herr, h, firstValue, nilPanic]
      · simp [getDomainIp, hr, herr, h, firstValue, h2, nilPanic]
      · simp [getDomainIp, hr, herr, h, firstValue, h2, nilPanic]
    · rintro (h | ⟨rrs, rest, h, h2⟩)
      · simp [getDomainIp, hr, herr, h, firstValue, indexPanic]
      · simp [getDomainIp, hr, herr, h, firstValue, h2, indexPanic]
  · intro e he
    simp [iteration, he, List.filter_append, tick_trace_no_error, isErrorEvent, logLoopError]
  · intro he
    simp [iteration, he, List.filter_append, tick_trace_no_error, isErrorEvent]
  · simp [iteration, Minute]

/-- C6 on a zone that lists no record set: the index fault becomes the error
of the tick and the iteration logs it once. -/
theorem tick_failure_one_loop_error_witness :
    (tick exampleConfig
      ⟨fun _ => probeBody "203.0.113.8", fun _ => ⟨some ⟨[]⟩, none⟩, fun _ => none⟩ true).err =
      some "panic currentIP=203.0.113.8, domainIP=, err=runtime error: index out of range [0] with length 0\n" ∧
    (iteration exampleConfig
      ⟨fun _ => probeBody "203.0.113.8", fun _ => ⟨some ⟨[]⟩, none⟩, fun _ => none⟩ true).filter
        isErrorEvent =
      [.log .error [("error",
        "panic currentIP=203.0.113.8, domainIP=, err=runtime error: index out of range [0] with length 0\n")]
        "loop error"] :=
  have h := tick_failure_one_loop_error exampleConfig
    ⟨fun _ => probeBody "203.0.113.8", fun _ => ⟨some ⟨[]⟩, none⟩, fun _ => none⟩ true []
  have herr := (h.2.2.2.1 "203.0.113.8" "runtime error: index out of range [0] with length 0"
    (by rfl) (by rfl)).2
  ⟨herr, h.2.2.2.2.2.1 _ herr⟩

/-- C7: in every run of the loop from `firstRun = true`, as `main` starts it,
that contains a tick whose probe and zone read both succeed, the trace is `before ++ Started :: after`: `Started` is
logged once, in the first such tick, right after its GET and list request;
all earlier ticks ended in an error and logged neither `Started` nor
`IP change detected` nor `Changed domainIP`; nothing after it is a `Started`;
and a tick that starts with the flag cleared leaves it cleared. -/
theorem started_exactly_once (cfg : Config) (ws : List World)
    (h : ∃ w ∈ ws, passes cfg w = true) :
    ∃ pre w post o p tail,
      ws = pre ++ w :: post ∧
      (∀ x ∈ pre, passes cfg x = false) ∧
      (getCurrentIp w).val = (none, o) ∧
      (getDomainIp w cfg.domainName cfg.hostedZoneId).val = .ret (none, p) ∧
      iteration cfg w true = [.httpGet "https://api.myip.com",
        .listResourceRecordSets (listInput cfg.domainName cfg.hostedZoneId),
        .log .info [("currentIP", o), ("domainIP", p)] "Started"] ++ tail ∧
      mainLoop cfg true ws =
        (mainLoop cfg true pre ++ [.httpGet "https://api.myip.com",
          .listResourceRecordSets (listInput cfg.domainName cfg.hostedZoneId)]) ++
        .log .info [("currentIP", o), ("domainIP", p)] "Started" ::
          (tail ++ mainLoop cfg false post) ∧
      (mainLoop cfg true ws).filter (isLog "Started") =
        [.log .info [("currentIP", o), ("domainIP", p)] "Started"] ∧
      (∀ ev ∈ mainLoop cfg true pre ++ [.httpGet "https://api.myip.com",
          .listResourceRecordSets (listInput cfg.domainName cfg.hostedZoneId)],
        isLog "Started" ev = false ∧ isLog "IP change detected" ev = false ∧
        isLog "Changed domainIP" ev = false) ∧
      (∀ x ∈ pre, ∀ f, (tick cfg x f).err ≠ none) ∧
      (∀ ev ∈ tail ++ mainLoop cfg false post, isLog "Started" ev = false) ∧
      (∀ x, (tick cfg x false).firstRun = false) ∧
      (∀ xs, flagAfter cfg false xs = false) := by
  obtain ⟨pre, w, post, rfl, hpre, hw⟩ := split_first_passing cfg ws h
  have hop : ∃ o p, (getCurrentIp w).val = (none, o) ∧
      (getDomainIp w cfg.domainName cfg.hostedZoneId).val = .ret (none, p) := by
    rcases tick_cases cfg w with ⟨e, s, hc⟩ | ⟨o, e, s, hc, hd⟩ | ⟨o, re, hc, hd⟩ |
      ⟨o, hc, hd⟩ | ⟨o, p, hc, hd, -⟩
    · simp [passes, hc] at hw
    · simp [passes, hc, hd] at hw
    · simp [passes, hc, hd] at hw
    · exact ⟨o, o, hc, hd⟩
    · exact ⟨o, p, hc, hd⟩
  obtain ⟨o, p, hc, hd⟩ := hop
  obtain ⟨tail, hit, htail⟩ := iteration_passes_true cfg w o p hc hd
  have hflag : flagAfter cfg true pre = true := (flagAfter_true cfg pre).2 hpre
  have hnext : (tick cfg w true).firstRun = false := by simp [tick_firstRun, hw]
  have hbefore : ∀ ev ∈ mainLoop cfg true pre ++ [.httpGet "https://api.myip.com",
      .listResourceRecordSets (listInput cfg.domainName cfg.hostedZoneId)],
      isLog "Started" ev = false ∧ isLog "IP change detected" ev = false ∧
      isLog "Changed domainIP" ev = false := by
    intro ev hev
    rcases List.mem_append.1 hev with hev | hev
    · exact ⟨mainLoop_not_passing cfg pre hpre true ev hev _ (by decide),
        mainLoop_not_passing cfg pre hpre true ev hev _ (by decide),
        mainLoop_not_passing cfg pre hpre true ev hev _ (by decide)⟩
    · simp only [List.mem_cons, List.mem_singleton, List.not_mem_nil, or_false] at hev
      rcases hev with rfl | rfl <;> exact ⟨rfl, rfl, rfl⟩
  have hafter : ∀ ev ∈ tail ++ mainLoop cfg false post, isLog "Started" ev = false := by
    intro ev hev
    rcases List.mem_append.1 hev with hev | hev
    · exact htail ev hev
    · exact mainLoop_false_no_started cfg post ev hev
  have htrace : mainLoop cfg true (pre ++ w :: post) =
      (mainLoop cfg true pre ++ [.httpGet "https://api.myip.com",
        .listResourceRecordSets (listInput cfg.domainName cfg.hostedZoneId)]) ++
      logStarted o p :: (tail ++ mainLoop cfg false post) := by
    rw [mainLoop_append, hflag]
    simp [mainLoop, hit, hnext]
  refine ⟨pre, w, post, o, p, tail, rfl, hpre, hc, hd, hit, htrace, ?_, hbefore, ?_, hafter,
    ?_, flagAfter_false cfg⟩
  · rw [htrace, List.filter_append, List.filter_cons]
    have h1 : List.filter (isLog "Started") (mainLoop cfg true pre ++
        [.httpGet "https://api.myip.com",
         .listResourceRecordSets (listInput cfg.domainName cfg.hostedZoneId)]) = [] := by
      rw [List.filter_eq_nil_iff]
      intro ev hev
      simp [(hbefore ev hev).1]
    have h2 : List.filter (isLog "Started") (tail ++ mainLoop cfg false post) = [] := by
      rw [List.filter_eq_nil_iff]
      intro ev hev
      simp [hafter ev hev]
    rw [h1, h2]
    simp [isLog, logStarted]
  · intro x hx f
    exact (tick_not_passes cfg x f (hpre x hx)).1
  · intro x
    simp [tick_firstRun]

/-- C7 on a run of three ticks: a failed probe, then two ticks that get past
the probe and the read. -/
theorem started_exactly_once_witness :
    (∃ w ∈ [⟨fun _ => .getErr "timeout", fun _ => ⟨none, none⟩, fun _ => none⟩,
        worldOf "203.0.113.8" "203.0.113.7" none, worldOf "203.0.113.8" "203.0.113.8" none],
      passes exampleConfig w = true) ∧
    ((mainLoop exampleConfig true
      [⟨fun _ => .getErr "timeout", fun _ => ⟨none, none⟩, fun _ => none⟩,
        worldOf "203.0.113.8" "203.0.113.7" none,
        worldOf "203.0.113.8" "203.0.113.8" none]).filter (isLog "Started")).length = 1 := by
  have hex : ∃ w ∈ [⟨fun _ => .getErr "timeout", fun _ => ⟨none, none⟩, fun _ => none⟩,
        worldOf "203.0.113.8" "203.0.113.7" none, worldOf "203.0.113.8" "203.0.113.8" none],
      passes exampleConfig w = true :=
    ⟨worldOf "203.0.113.8" "203.0.113.7" none, by simp, by rfl⟩
  obtain ⟨pre, w, post, o, p, tail, -, -, -, -, -, -, hfilter, -⟩ :=
    started_exactly_once exampleConfig _ hex
  exact ⟨hex, by rw [hfilter]; rfl⟩

/-- C3 fails on the code: with the probe at `203.0.113.8` and a zone listing
without record sets, the tick sends no change request and returns the error of
the recovered index fault. -/
theorem missing_record_counterexample :
    (getCurrentIp worldNoRecordSets).val = (none, "203.0.113.8") ∧
    worldNoRecordSets.listResourceRecordSets
      (listInput exampleConfig.domainName exampleConfig.hostedZoneId) = ⟨some ⟨[]⟩, none⟩ ∧
    (tick exampleConfig worldNoRecordSets true).trace.filter isChangeCall = [] ∧
    (tick exampleConfig worldNoRecordSets true).err =
      some "panic currentIP=203.0.113.8, domainIP=, err=runtime error: index out of range [0] with length 0\n" ∧
    (tick exampleConfig worldNoRecordSets true).err ≠ none := by
  refine ⟨by rfl, by rfl, by rfl, by rfl, ?_⟩
  intro h
  cases h

/-- C3 as amended: when the probe yields `o` and the zone listing holds no
record set, indexing the empty list panics in `getDomainIp`; the tick sends no
change request, logs neither `Started` nor a change, leaves `firstRun` as it
was and returns the error of the recovered fault, which the loop logs once. -/
theorem tick_no_record_sets (cfg : Config) (w : World) (firstRun : Bool) (o : String)
    (hprobe : (getCurrentIp w).val = (none, o))
    (hlist : w.listResourceRecordSets (listInput cfg.domainName cfg.hostedZoneId) =
      ⟨some ⟨[]⟩, none⟩) :
    (tick cfg w firstRun).trace.filter isChangeCall = [] ∧
    (tick cfg w firstRun).err = some ("panic currentIP=" ++ o ++
      ", domainIP=, err=runtime error: index out of range [0] with length 0\n") ∧
    (tick cfg w firstRun).firstRun = firstRun ∧
    (tick cfg w firstRun).trace = [.httpGet "https://api.myip.com",
      .listResourceRecordSets (listInput cfg.domainName cfg.hostedZoneId)] ∧
    (iteration cfg w firstRun).filter isErrorEvent =
      [.log .error [("error", "panic currentIP=" ++ o ++
        ", domainIP=, err=runtime error: index out of range [0] with length 0\n")]
        "loop error"] := by
  have hread : (getDomainIp w cfg.domainName cfg.hostedZoneId).val = .panic indexPanic := by
    simp [getDomainIp, hlist, firstValue]
  obtain ⟨h1, h2, h3⟩ := tick_read_panic cfg w firstRun o indexPanic hprobe hread
  have herr : (tick cfg w firstRun).err = some ("panic currentIP=" ++ o ++
      ", domainIP=, err=runtime error: index out of range [0] with length 0\n") := by
    rw [h1]
    simp [panicMessage, indexPanic, String.append_assoc]
  refine ⟨?_, herr, h2, h3, ?_⟩
  · simp [h3, isChangeCall]
  · simp [iteration, herr, h3, isErrorEvent, logLoopError]

/-- C3 as amended, on the zone that lists no record set. -/
theorem tick_no_record_sets_witness :
    (tick exampleConfig worldNoRecordSets true).trace.filter isChangeCall = [] ∧
    (tick exampleConfig worldNoRecordSets true).firstRun = true :=
  have h := tick_no_record_sets exampleConfig worldNoRecordSets true "203.0.113.8"
    (by rfl) (by rfl)
  ⟨h.1, h.2.2.1⟩

/-- C4 fails on the code: for the document `{}` the probe returns success with
the empty string, which is no IPv4; the tick then reads the zone and sends a
change request that sets the record to the empty string.  A member `ip` that
is no IPv4 is returned as it is. -/
theorem getCurrentIp_counterexample :
    (getCurrentIp worldEmptyDoc).val = (none, "") ∧
    specValidIPv4 "" = false ∧
    (tick exampleConfig worldEmptyDoc true).err = none ∧
    (tick exampleConfig worldEmptyDoc true).trace.filter isZoneCall =
      [.listResourceRecordSets (listInput "home.example.com" "Z1EXAMPLE"),
       .changeResourceRecordSets (changeInput "home.example.com" "" "Z1EXAMPLE")] ∧
    (getCurrentIp (worldOf "not-an-ip" "203.0.113.7" none)).val = (none, "not-an-ip") ∧
    specValidIPv4 "not-an-ip" = false :=
  ⟨by rfl, by decide, by rfl, by rfl, by rfl, by decide⟩

/-- C4 as amended: `getCurrentIp` returns success exactly when the body is
valid JSON that is `null` or an object in which every member named `ip`
(ignoring ASCII case) holds a string or `null`; what it returns is then the
last such string, as it stands, or the empty string when there is none.  In
every other case it returns an error, the tick returns that error and makes no
zone call. -/
theorem getCurrentIp_accepts (cfg : Config) (w : World) (firstRun : Bool) :
    ((getCurrentIp w).val.1 = none ↔
      ∃ doc, w.httpGet "https://api.myip.com" = .body (.valid doc) ∧
        (doc = .null ∨ ∃ ms, doc = .object ms ∧
          ∀ kv ∈ ms, matchesFieldIP kv.1 = true → kv.2 = .null ∨ ∃ s, kv.2 = .string s)) ∧
    (∀ pre k s post,
      w.httpGet "https://api.myip.com" = .body (.valid (.object (pre ++ (k, .string s) :: post))) →
      matchesFieldIP k = true →
      (∀ kv ∈ pre, matchesFieldIP kv.1 = true → kv.2 = .null ∨ ∃ t, kv.2 = .string t) →
      (∀ kv ∈ post, matchesFieldIP kv.1 = true → kv.2 = .null) →
      (getCurrentIp w).val = (none, s)) ∧
    (w.httpGet "https://api.myip.com" = .body (.valid .null) ∨
      (∃ ms, w.httpGet "https://api.myip.com" = .body (.valid (.object ms)) ∧
        ∀ kv ∈ ms, matchesFieldIP kv.1 = true → kv.2 = .null) →
      (getCurrentIp w).val = (none, "")) ∧
    (∀ e s, (getCurrentIp w).val = (some e, s) →
      (tick cfg w firstRun).err = some e ∧
      (tick cfg w firstRun).trace.filter isZoneCall = []) := by
  have hobj : ∀ ms, w.httpGet "https://api.myip.com" = .body (.valid (.object ms)) →
      (getCurrentIp w).val = (match (decodeMembers ms ("", none)).2 with
        | some e => (some e, "")
        | none => (none, (decodeMembers ms ("", none)).1)) := by
    intro ms hget
    simp only [getCurrentIp, hget, unmarshal]
    rcases decodeMembers ms ("", none) with ⟨ip, _ | e⟩ <;> rfl
  refine ⟨?_, ?_, ?_, ?_⟩
  · rcases hget : w.httpGet "https://api.myip.com" with e | e | rb
    · simp [getCurrentIp, hget]
    · simp [getCurrentIp, hget]
    · rcases rb with e | doc
      · simp [getCurrentIp, hget, unmarshal]
      · cases doc with
        | null => simp [getCurrentIp, hget, unmarshal]
        | bool b => simp [getCurrentIp, hget, unmarshal]
        | number n => simp [getCurrentIp, hget, unmarshal]
        | string t => simp [getCurrentIp, hget, unmarshal]
        | array a => simp [getCurrentIp, hget, unmarshal]
        | object ms =>
          rw [hobj ms hget]
          have hiff := decodeMembers_err ms "" none
          cases hd : (decodeMembers ms ("", none)).2 with
          | none =>
            have hall := (hiff.1 hd).2
            simp only [true_iff]
            exact ⟨.object ms, rfl, Or.inr ⟨ms, rfl, hall⟩⟩
          | some e =>
            simp only [false_iff, reduceCtorEq]
            rintro ⟨doc, hdoc, hnull | ⟨ms2, hms, hall⟩⟩
            · subst hnull
              cases hdoc
            · subst hms
              cases hdoc
              rw [hiff.2 ⟨rfl, hall⟩] at hd
              cases hd
  · intro pre k s post hget hk hpre hpost
    have herr : (decodeMembers (pre ++ (k, .string s) :: post) ("", none)).2 = none := by
      rw [decodeMembers_err]
      refine ⟨rfl, ?_⟩
      intro kv hkv hm
      rcases List.mem_append.1 hkv with hkv | hkv
      · exact hpre kv hkv hm
      · rcases List.mem_cons.1 hkv with rfl | hkv
        · exact Or.inr ⟨s, rfl⟩
        · exact Or.inl (hpost kv hkv hm)
    have hval : (decodeMembers (pre ++ (k, .string s) :: post) ("", none)).1 = s := by
      rw [decodeMembers_append]
      rcases decodeMembers pre ("", none) with ⟨ip0, saved0⟩
      simp only [decodeMembers, hk, if_true]
      apply decodeMembers_keep
      intro kv hkv hm t ht
      rw [hpost kv hkv hm] at ht
      cases ht
    rw [hobj _ hget, herr, hval]
  · rintro (hget | ⟨ms, hget, hall⟩)
    · simp [getCurrentIp, hget, unmarshal]
    · have herr : (decodeMembers ms ("", none)).2 = none := by
        rw [decodeMembers_err]
        exact ⟨rfl, fun kv hkv hm => Or.inl (hall kv hkv hm)⟩
      have hval : (decodeMembers ms ("", none)).1 = "" := by
        apply decodeMembers_keep
        intro kv hkv hm t ht
        rw [hall kv hkv hm] at ht
        cases ht
      rw [hobj _ hget, herr, hval]
  · intro e s hc
    obtain ⟨h1, -, h3⟩ := tick_probe_err cfg w firstRun e s hc
    exact ⟨h1, by simp [h3, isZoneCall, isListCall, isChangeCall]⟩

/-- C4 as amended, on a document whose member `ip` is a number: the probe
fails, the tick returns the error and calls no zone operation. -/
theorem getCurrentIp_accepts_witness :
    (tick exampleConfig
      ⟨fun _ => .body (.valid (.object [("ip", .number "7")])),
        fun _ => zoneWith "home.example.com." "203.0.113.7", fun _ => none⟩ true).err =
      some "json: cannot unmarshal number into Go struct field .IP of type string" ∧
    (tick exampleConfig
      ⟨fun _ => .body (.valid (.object [("ip", .number "7")])),
        fun _ => zoneWith "home.example.com." "203.0.113.7", fun _ => none⟩ true).trace.filter
        isZoneCall = [] :=
  (getCurrentIp_accepts exampleConfig
    ⟨fun _ => .body (.valid (.object [("ip", .number "7")])),
      fun _ => zoneWith "home.example.com." "203.0.113.7", fun _ => none⟩ true).2.2.2
    "json: cannot unmarshal number into Go struct field .IP of type string" "" (by rfl)

/-- C9 fails on the code: the probe yields `203.0.113.7` followed by a newline,
the zone publishes `203.0.113.7`; the two are equal in canonical form and the
tick sends a change request all the same. -/
theorem canonical_equal_counterexample :
    (getCurrentIp (worldOf "203.0.113.7\n" "203.0.113.7" none)).val = (none, "203.0.113.7\n") ∧
    (getDomainIp (worldOf "203.0.113.7\n" "203.0.113.7" none) exampleConfig.domainName
      exampleConfig.hostedZoneId).val = .ret (none, "203.0.113.7") ∧
    specCanon "203.0.113.7\n" = specCanon "203.0.113.7" ∧
    (tick exampleConfig (worldOf "203.0.113.7\n" "203.0.113.7" none) true).trace.filter
      isChangeCall =
      [.changeResourceRecordSets (changeInput "home.example.com" "203.0.113.7\n" "Z1EXAMPLE")] ∧
    (tick exampleConfig (worldOf "203.0.113.7\n" "203.0.113.7" none) true).trace.filter
      isChangeCall ≠ [] := by
  refine ⟨by rfl, by rfl, by decide, by rfl, ?_⟩
  intro h
  cases h

/-- C9 as amended: the comparison is equality of the two strings as they are.
When the probe yields `o` and the zone read yields `p`, the tick sends no
change request if and only if `o = p`. -/
theorem tick_no_upsert_iff_same_string (cfg : Config) (w : World) (firstRun : Bool)
    (o p : String)
    (hprobe : (getCurrentIp w).val = (none, o))
    (hread : (getDomainIp w cfg.domainName cfg.hostedZoneId).val = .ret (none, p)) :
    (tick cfg w firstRun).trace.filter isChangeCall = [] ↔ o = p := by
  constructor
  · intro h
    by_contra hne
    rw [(tick_diff cfg w firstRun o p hprobe hread hne).2.2] at h
    revert h
    cases firstRun <;>
      cases w.changeResourceRecordSets (changeInput cfg.domainName o cfg.hostedZoneId) <;>
      simp [isChangeCall, logStarted, logChangeDetected, logChanged]
  · intro h
    subst h
    rw [(tick_same cfg w firstRun o hprobe hread).2.2]
    cases firstRun <;> simp [isChangeCall, logStarted]

/-- C9 as amended, at scenario S1. -/
theorem tick_no_upsert_iff_same_string_witness :
    (tick exampleConfig (worldOf "203.0.113.7" "203.0.113.7" none) false).trace.filter
      isChangeCall = [] :=
  (tick_no_upsert_iff_same_string exampleConfig (worldOf "203.0.113.7" "203.0.113.7" none) false
    "203.0.113.7" "203.0.113.7" (by rfl) (by rfl)).2 rfl

/-- C10 fails on the code: the listing for `home.example.com` starts at the
record set `mail.example.com.`, a different name after normalization, and the
zone read returns its value `198.51.100.1` without an error. -/
theorem neighbour_record_counterexample :
    worldNeighbour.listResourceRecordSets
      (listInput exampleConfig.domainName exampleConfig.hostedZoneId) =
      ⟨some ⟨[some ⟨some "mail.example.com.", some "A", some 60,
        [some ⟨some "198.51.100.1"⟩]⟩]⟩, none⟩ ∧
    specNormalizeName "mail.example.com." ≠ specNormalizeName exampleConfig.domainName ∧
    (getDomainIp worldNeighbour exampleConfig.domainName exampleConfig.hostedZoneId).val =
      .ret (none, "198.51.100.1") :=
  ⟨by rfl, by decide, by rfl⟩

/-- C10 as amended: when the listing returns without error, `getDomainIp`
returns the first value of the first listed record set as the published
address, whatever the name of that record set is. -/
theorem getDomainIp_first_value (w : World) (name hostedZoneId : String)
    (rrs : ResourceRecordSet) (rest : List (Option ResourceRecordSet))
    (rr : ResourceRecord) (rrest : List (Option ResourceRecord)) (v : String)
    (hlist : w.listResourceRecordSets (listInput name hostedZoneId) =
      ⟨some ⟨some rrs :: rest⟩, none⟩)
    (hrecords : rrs.ResourceRecords = some rr :: rrest)
    (hvalue : rr.Value = some v) :
    (getDomainIp w name hostedZoneId).val = .ret (none, v) := by
  simp [getDomainIp, hlist, firstValue, hrecords, hvalue]

/-- C10 as amended, on the listing that starts at the neighbouring name. -/
theorem getDomainIp_first_value_witness :
    (getDomainIp worldNeighbour "home.example.com" "Z1EXAMPLE").val =
      .ret (none, "198.51.100.1") :=
  getDomainIp_first_value worldNeighbour "home.example.com" "Z1EXAMPLE"
    ⟨some "mail.example.com.", some "A", some 60, [some ⟨some "198.51.100.1"⟩]⟩ []
    ⟨some "198.51.100.1"⟩ [] "198.51.100.1" (by rfl) (by rfl) (by rfl)

end Route53Updater
